import Mathlib

/-!
# Verification of the github-data-collector summary pipeline

Shallow embedding of the data model and operations of the repository:
* `src/src/collect_repo_data.py` — repository snapshot collector,
* `src/src/collect_contribution_data.py` — contributor snapshot collector,
* `src/src/generate_summary.py` — summary aggregator (`generate_summary_report`),
* `src/src/generate_dashboard.py` — HTML renderer (`create_dashboard_html`),
* `src/dags/github_data_collection_dag.py` — DAG task functions
  (`collect_contribution_data`, `cleanup_old_files`),
* `src/dags/utils/github_client.py` — `GitHubDataCollector.check_rate_limit`.

Machine integers of the source are modeled as `Nat` (all counters are
non-negative and far from any overflow boundary), fractional statistics as `ℚ`,
nullable JSON fields as `Option`, and fallible operations as `Except`/`Option`.
-/

namespace GithubDataCollector

/-- One normalized repository row, as produced by
`GitHubRepoCollector.collect_organization_repos` (collect_repo_data.py) and
consumed by `generate_summary_report`.  Fields not read by any aggregate
(description, urls, timestamps, flags) are omitted from the model. -/
structure RepoRecord where
  organization : String
  name : String
  full_name : String
  stars : Nat
  forks : Nat
  open_issues : Nat
  language : Option String
  license : Option String
  size : Nat
deriving DecidableEq, Repr

/-- One contributor entry of a repository contribution aggregate
(collect_contribution_data.py, `contrib_info`). -/
structure ContributorRecord where
  login : String
  contributions : Nat
  avatar_url : String
  html_url : String
deriving DecidableEq, Repr

/-- One element of the contributor snapshot
(collect_contribution_data.py, `contribution_data` items). -/
structure RepositoryContribution where
  repo_full_name : String
  total_contributors : Nat
  contributors : List ContributorRecord
deriving DecidableEq, Repr

/-- Row of a ranking list: the column projection
`[['full_name', 'stars', 'forks', 'language', 'organization']]` applied by
`generate_summary_report` to the `nlargest` results. -/
structure RankedRepo where
  full_name : String
  stars : Nat
  forks : Nat
  language : Option String
  organization : String
deriving DecidableEq, Repr

/-- One leaderboard row of `contribution_analysis.top_contributors`. -/
structure ContributorStanding where
  login : String
  total_contributions : Nat
  repos_contributed : Nat
  avatar_url : String
  html_url : String
deriving DecidableEq, Repr

/-- The `contribution_analysis` section of the summary
(generate_summary.py, lines 130-144).  The 2-decimal display rounding of
`average_contributors_per_repo` is omitted: the field is kept as the exact
quotient. -/
structure ContributionAnalysis where
  repositories_analyzed : Nat
  total_contributors : Nat
  average_contributors_per_repo : ℚ
  top_contributors : List ContributorStanding
deriving DecidableEq, Repr

/-- Per-organization aggregate row of `org_stats`
(`repo_df.groupby('organization').agg(...)`).  Means are kept as exact
rationals (the source rounds them to 2 decimals for display). -/
structure OrgStats where
  repo_count : Nat
  stars_sum : Nat
  stars_mean : ℚ
  stars_max : Nat
  forks_sum : Nat
  forks_mean : ℚ
  forks_max : Nat
  open_issues_sum : Nat
deriving DecidableEq, Repr

/-- The summary dictionary built by `generate_summary_report`, restricted to
the fields the verified properties are about.  Scalar fields that no claim
reads (medians, activity indicators, size statistics, timestamps) are
omitted. -/
structure SummaryReport where
  total_repositories : Nat
  total_organizations : Nat
  total_stars : Nat
  total_forks : Nat
  total_open_issues : Nat
  organization_breakdown : List (String × OrgStats)
  top_languages : List (String × Nat)
  license_distribution : List (String × Nat)
  top_starred_repositories : List RankedRepo
  top_forked_repositories : List RankedRepo
  contribution_analysis : Option ContributionAnalysis
deriving DecidableEq, Repr

/-! ## Sorting and counting helpers shared by the pandas/python operations -/

variable {α : Type*} {β : Type*}

/-- Python `sorted(l, key=key, reverse=True)` and the row order of pandas
`nlargest(_, col)` with the default `keep='first'`: a stable sort, descending
by a numeric key, ties left in input order.  `List.insertionSort` with
`a ≼ b ↔ key b ≤ key a` is exactly this stable order. -/
def pySortDescBy (key : α → Nat) (l : List α) : List α :=
  l.insertionSort (fun a b => key b ≤ key a)

/-- pandas `DataFrame.nlargest(n, col)` (keep='first'): first `n` rows by the
column, descending, ties broken towards earlier rows. -/
def nlargestBy (n : Nat) (key : α → Nat) (l : List α) : List α :=
  (pySortDescBy key l).take n

/-- Distinct values in first-occurrence order (the key order of a Python
dict built by a linear scan). -/
def firstOccur [DecidableEq α] (l : List α) : List α :=
  l.foldl (fun acc a => if a ∈ acc then acc else acc ++ [a]) []

/-- pandas `Series.value_counts()`: null entries are dropped (`dropna=True`
is the default), the distinct remaining values are paired with their
multiplicities and ordered by count descending.  (pandas leaves the relative
order of equal counts unspecified; the stable first-occurrence order is used
here.) -/
def valueCounts (vals : List (Option String)) : List (String × Nat) :=
  pySortDescBy (fun p => p.2)
    ((firstOccur (vals.filterMap id)).map (fun k => (k, (vals.filterMap id).count k)))

/-! ## The summary aggregator, `generate_summary_report` -/

/-- The rows of one `groupby('organization')` group. -/
def orgGroup (repos : List RepoRecord) (o : String) : List RepoRecord :=
  repos.filter (fun r => r.organization = o)

/-- Stars total of one organization partition. -/
def orgStarSum (repos : List RepoRecord) (o : String) : Nat :=
  (((orgGroup repos o)).map (fun r => r.stars)).sum

/-- The `agg` row of one organization group:
count of `name`, sum/mean/max of `stars` and `forks`, sum of `open_issues`. -/
def orgStatsOf (repos : List RepoRecord) (o : String) : OrgStats :=
  let g := orgGroup repos o
  { repo_count := g.length
    stars_sum := (g.map (fun r => r.stars)).sum
    stars_mean := ((g.map (fun r => r.stars)).sum : ℚ) / (g.length : ℚ)
    stars_max := (g.map (fun r => r.stars)).foldl max 0
    forks_sum := (g.map (fun r => r.forks)).sum
    forks_mean := ((g.map (fun r => r.forks)).sum : ℚ) / (g.length : ℚ)
    forks_max := (g.map (fun r => r.forks)).foldl max 0
    open_issues_sum := (g.map (fun r => r.open_issues)).sum }

/-- The `groupby('organization')` keys.  (pandas additionally sorts the group
keys ascending; the breakdown is compared here only as a keyed table, for
which the first-occurrence enumeration of the same key set is used.) -/
def orgKeys (repos : List RepoRecord) : List String :=
  firstOccur (repos.map (fun r => r.organization))

/-- Column projection applied to both ranking lists. -/
def rankedOf (r : RepoRecord) : RankedRepo :=
  { full_name := r.full_name
    stars := r.stars
    forks := r.forks
    language := r.language
    organization := r.organization }

/-- Running per-login accumulator of the contributor merge
(generate_summary.py, lines 109-121), minus the login key. -/
structure Activity where
  total_contributions : Nat
  repos_contributed : Nat
  avatar_url : String
  html_url : String
deriving DecidableEq, Repr

/-- One step of the merge: `contributor_activity[login]` is created on first
sight (Python dicts keep insertion order, so new logins go to the back) and
then accumulated: `total_contributions += contributions`,
`repos_contributed += 1`. -/
def bumpActivity (acc : List (String × Activity)) (c : ContributorRecord) :
    List (String × Activity) :=
  if acc.any (fun p => p.1 = c.login) then
    acc.map (fun p =>
      if p.1 = c.login then
        (p.1, { p.2 with
                  total_contributions := p.2.total_contributions + c.contributions
                  repos_contributed := p.2.repos_contributed + 1 })
      else p)
  else
    acc ++ [(c.login, ⟨c.contributions, 1, c.avatar_url, c.html_url⟩)]

/-- The full `contributor_activity` dict: the double loop over the snapshot
entries and their contributor sequences. -/
def contributorActivity (contrib : List RepositoryContribution) :
    List (String × Activity) :=
  contrib.foldl (fun acc rc => rc.contributors.foldl bumpActivity acc) []

/-- `('login', data)` pair flattened into a leaderboard row. -/
def standingOf (p : String × Activity) : ContributorStanding :=
  { login := p.1
    total_contributions := p.2.total_contributions
    repos_contributed := p.2.repos_contributed
    avatar_url := p.2.avatar_url
    html_url := p.2.html_url }

/-- `top_contributors`: the activity dict items sorted by
`total_contributions` descending (Python's stable `sorted`) and cut to 25. -/
def topContributorsOf (contrib : List RepositoryContribution) :
    List ContributorStanding :=
  ((pySortDescBy (fun p => p.2.total_contributions)
      (contributorActivity contrib)).take 25).map standingOf

/-- The `contribution_analysis` section for a non-empty contributor
snapshot. -/
def contributionAnalysisOf (contrib : List RepositoryContribution) :
    ContributionAnalysis :=
  let total := (contrib.map (fun rc => rc.total_contributors)).sum
  { repositories_analyzed := contrib.length
    total_contributors := total
    average_contributors_per_repo := (total : ℚ) / (contrib.length : ℚ)
    top_contributors := topContributorsOf contrib }

/-- Contributor input of `generate_summary_report`:
`none` — no `--contrib-file` argument was given;
`some none` — a path was given but `Path(contrib_file).exists()` is false;
`some (some l)` — the file exists and holds the JSON array `l`. -/
abbrev ContribInput := Option (Option (List RepositoryContribution))

/-- The control flow guarding the `contribution_analysis` key
(generate_summary.py, lines 100-105): the key is added only when a
contributor file was given AND exists (`if contrib_file and
Path(contrib_file).exists()`) AND parses to a non-empty array
(`if contrib_data:`). -/
def contributionSection (contribFile : ContribInput) : Option ContributionAnalysis :=
  match contribFile with
  | some (some contribData) =>
    if contribData.isEmpty then none
    else some (contributionAnalysisOf contribData)
  | _ => none

/-- `generate_summary_report(repo_file, contrib_file)`
(src/src/generate_summary.py), with file I/O made explicit: `repos` is the
parsed repository snapshot and `contribFile` the contributor input as
above. -/
def generateSummaryReport (repos : List RepoRecord) (contribFile : ContribInput) :
    SummaryReport :=
  { total_repositories := repos.length
    total_organizations := (orgKeys repos).length
    total_stars := (repos.map (fun r => r.stars)).sum
    total_forks := (repos.map (fun r => r.forks)).sum
    total_open_issues := (repos.map (fun r => r.open_issues)).sum
    organization_breakdown := (orgKeys repos).map (fun o => (o, orgStatsOf repos o))
    top_languages := (valueCounts (repos.map (fun r => r.language))).take 15
    license_distribution := (valueCounts (repos.map (fun r => r.license))).take 10
    top_starred_repositories := (nlargestBy 25 (fun r => r.stars) repos).map rankedOf
    top_forked_repositories := (nlargestBy 25 (fun r => r.forks) repos).map rankedOf
    contribution_analysis := contributionSection contribFile }

/-! ## The dashboard renderer, `create_dashboard_html` -/

/-- Jinja2 semantics the template relies on: an undefined attribute is falsy
inside `{% if %}`, but iterating it with `{% for %}` raises
`UndefinedError`. -/
def jinjaIterate (xs : Option (List α)) : Except String (List α) :=
  match xs with
  | some l => Except.ok l
  | none => Except.error "UndefinedError"

/-- One row of the top-starred table (template lines 80-88); `{{
repo.language or 'N/A' }}` falls back for a null language. -/
def repoRowHtml (r : RankedRepo) : String :=
  "<tr><td>" ++ r.full_name ++ "</td><td>" ++ r.organization ++ "</td><td>" ++
    toString r.stars ++ "</td><td>" ++ toString r.forks ++ "</td><td>" ++
    (match r.language with | some lang => lang | none => "N/A") ++ "</td></tr>"

/-- One row of the contributor table (template lines 116-126). -/
def contributorRowHtml (c : ContributorStanding) : String :=
  "<tr><td><img src=" ++ c.avatar_url ++ ">" ++ c.login ++ "</td><td>" ++
    toString c.total_contributions ++ "</td><td>" ++
    toString c.repos_contributed ++ "</td><td><a href=" ++ c.html_url ++
    ">View Profile</a></td></tr>"

/-- The guarded `{% if summary_data.contribution_analysis %}` block (template
lines 103-130): when the section is absent the guard sees an undefined
attribute, which is falsy, and the block renders nothing; when present it
iterates `top_contributors[:10]`.  (Unguarded iteration of the undefined
attribute would raise, which is what the `Except` codomain models.) -/
def contributorSectionHtml (s : SummaryReport) : Except String String :=
  if s.contribution_analysis.isSome then do
    let rows ← jinjaIterate (s.contribution_analysis.map (fun ca => ca.top_contributors))
    Except.ok ("<h2>Top Contributors</h2><table>" ++
      String.join ((rows.take 10).map contributorRowHtml) ++ "</table>")
  else Except.ok ""

/-- Header and always-present metric cards of the template. -/
def metricsHtml (s : SummaryReport) : String :=
  "<h1>GitHub Data Collection Dashboard</h1>" ++
  "<div>" ++ toString s.total_repositories ++ " Total Repositories</div>" ++
  "<div>" ++ toString s.total_stars ++ " Total Stars</div>" ++
  "<div>" ++ toString s.total_forks ++ " Total Forks</div>" ++
  "<div>" ++ toString s.total_organizations ++ " Organizations</div>"

/-- The top-starred table, `top_starred_repositories[:15]`. -/
def starTableHtml (s : SummaryReport) : String :=
  "<h2>Top Starred Repositories</h2><table>" ++
    String.join ((s.top_starred_repositories.take 15).map repoRowHtml) ++ "</table>"

/-- `create_dashboard_html(summary_data)` (src/src/generate_dashboard.py):
renders the static template.  CSS, chart scripts and chart data blocks carry
no report logic and are omitted; kept are the metric cards, the top-starred
table and the guarded contributor section. -/
def createDashboardHtml (s : SummaryReport) : Except String String := do
  let contribSection ← contributorSectionHtml s
  Except.ok (metricsHtml s ++ starTableHtml s ++ contribSection)

/-! ## Collectors and their per-entity error handling -/

/-- `GitHubContributionCollector.collect_repository_contributors`
(src/src/collect_contribution_data.py, lines 22-51): the fetched contributor
sequence is truncated to `max_contributors` first
(`list(repo.get_contributors())[:max_contributors]`) and `total_contributors`
is then the length of the already-truncated sequence. -/
def srcCollectRepositoryContributors (repo_full_name : String)
    (fetched : List ContributorRecord) (max_contributors : Nat) :
    RepositoryContribution :=
  let contributors := fetched.take max_contributors
  { repo_full_name := repo_full_name
    total_contributors := contributors.length
    contributors := contributors }

/-- The per-repository body of the DAG task `collect_contribution_data`
(src/dags/github_data_collection_dag.py, lines 123-142): here
`total_contributors` is the length of the full fetched list, and only the
stored sequence is cut to the top 20. -/
def dagCollectRepositoryContributors (repo_full_name : String)
    (fetched : List ContributorRecord) : RepositoryContribution :=
  { repo_full_name := repo_full_name
    total_contributors := fetched.length
    contributors := fetched.take 20 }

/-- The organization loop of collect_repo_data.py `main` (lines 110-113):
`all_repo_data.extend(collector.collect_organization_repos(org, ...))`,
where `collect_organization_repos` returns `[]` after catching any
per-organization exception (lines 82-84).  An input pair is an organization
name together with the outcome of fetching it. -/
def collectAllOrgRepos (results : List (String × Except String (List RepoRecord))) :
    List RepoRecord :=
  results.foldl (fun acc pr =>
    acc ++ (match pr.2 with | Except.ok l => l | Except.error _ => [])) []

/-- The repository loop of collect_contribution_data.py `main`
(lines 90-108): `collect_repository_contributors` returns `None` when
fetching that repository raised (lines 49-51), and `if contrib_info:`
appends the entry otherwise. -/
def collectAllContributions (results : List (Option RepositoryContribution)) :
    List RepositoryContribution :=
  results.foldl (fun acc r =>
    match r with | some c => acc ++ [c] | none => acc) []

/-! ## The rate-limit behavior of the contributor collection loop -/

/-- Observable events of the contributor collection main loop. -/
inductive CollectorEvent
  | fetch (repoIdx : Nat)
  | checkQuota (remaining : Nat)
  | sleep
deriving DecidableEq, Repr

/-- Trace of the `main` collection loop of collect_contribution_data.py
(lines 90-113): every repository is fetched, and after every 10th one
(`if i % 10 == 0`, with `enumerate(top_repos, 1)`) the remaining quota is
read and printed.  No branch of the loop sleeps.  `quotaAt i` is the
remaining quota the API reports at the checkpoint after repository `i`. -/
def srcContributionLoopTrace (numRepos : Nat) (quotaAt : Nat → Nat) :
    List CollectorEvent :=
  (List.range numRepos).flatMap (fun i =>
    CollectorEvent.fetch (i + 1) ::
      (if (i + 1) % 10 = 0 then [CollectorEvent.checkQuota (quotaAt (i + 1))] else []))

/-- `GitHubDataCollector.check_rate_limit` (src/dags/utils/github_client.py,
lines 80-91): reads the quota and sleeps until past the reset time iff
`remaining < 100`.  No collection loop in the repository invokes it. -/
def checkRateLimitEvents (remaining : Nat) : List CollectorEvent :=
  CollectorEvent.checkQuota remaining ::
    (if remaining < 100 then [CollectorEvent.sleep] else [])

/-! ## The retention sweeper, `cleanup_old_files` -/

/-- A Gregorian calendar date. -/
structure CivilDate where
  year : Nat
  month : Nat
  day : Nat
deriving DecidableEq, Repr

def isLeapYear (y : Nat) : Bool :=
  (y % 4 == 0 && y % 100 != 0) || y % 400 == 0

def daysInMonth (y m : Nat) : Nat :=
  if m = 2 then (if isLeapYear y then 29 else 28)
  else if m = 4 ∨ m = 6 ∨ m = 9 ∨ m = 11 then 30
  else 31

/-- Python `str.split(sep)` for a one-character separator, on character
lists (never returns an empty list). -/
def splitOnChar (sep : Char) : List Char → List (List Char)
  | [] => [[]]
  | c :: rest =>
    match splitOnChar sep rest with
    | [] => [[c]]
    | h :: t => if c = sep then [] :: h :: t else (c :: h) :: t

/-- Python `str.replace(old, new)`: all non-overlapping occurrences, left to
right.  Structural recursion over a character budget so the definition
evaluates inside the kernel; `budget = cs.length` always suffices because
every step consumes at least one character. -/
def replaceAllAux (old new : List Char) : Nat → List Char → List Char
  | 0, cs => cs
  | _ + 1, [] => []
  | budget + 1, c :: rest =>
    if old.isPrefixOf (c :: rest) && !old.isEmpty then
      new ++ replaceAllAux old new budget (rest.drop (old.length - 1))
    else
      c :: replaceAllAux old new budget rest

def replaceAll (old new cs : List Char) : List Char :=
  replaceAllAux old new cs.length cs

def allDigits (cs : List Char) : Bool := cs.all (fun c => c.isDigit)

def digitsVal (cs : List Char) : Nat :=
  cs.foldl (fun n c => n * 10 + (c.toNat - 48)) 0

/-- `datetime.strptime(s, '%Y-%m-%d')`: `%Y` matches exactly 4 digits, `%m`
and `%d` match 1 or 2 digits with values 1-12 / 1-31 enforced by the format
regex, after which the `datetime` constructor validates the day against the
month length (and the year against `MINYEAR = 1`).  Any mismatch or leftover
characters raise `ValueError`, modeled by `none`. -/
def strptimeYmd (cs : List Char) : Option CivilDate :=
  match splitOnChar '-' cs with
  | [ys, ms, ds] =>
    if ys.length = 4 ∧ allDigits ys = true ∧
        (ms.length = 1 ∨ ms.length = 2) ∧ allDigits ms = true ∧
        (ds.length = 1 ∨ ds.length = 2) ∧ allDigits ds = true then
      let y := digitsVal ys
      let m := digitsVal ms
      let d := digitsVal ds
      if 1 ≤ y ∧ 1 ≤ m ∧ m ≤ 12 ∧ 1 ≤ d ∧ d ≤ daysInMonth y m then
        some ⟨y, m, d⟩
      else none
    else none
  | _ => none

/-- Julian day number of a Gregorian date (valid for year ≥ 1).  For
midnight datetimes, Python's `(current_date - file_date).days` equals the
difference of Julian day numbers. -/
def jdn (dt : CivilDate) : Int :=
  let a : Int := (14 - (dt.month : Int)) / 12
  let y : Int := (dt.year : Int) + 4800 - a
  let m : Int := (dt.month : Int) + 12 * a - 3
  (dt.day : Int) + (153 * m + 2) / 5 + 365 * y + y / 4 - y / 100 + y / 400 - 32045

/-- `(current_date - file_date).days`. -/
def daysBetween (cur fileDate : CivilDate) : Int := jdn cur - jdn fileDate

/-- `date_str = file_path.name.split('_')[-1].replace('.json', '')` followed
by `strptime` (cleanup_old_files, lines 192-194).  `split` never returns an
empty list, so the `[-1]` index cannot raise. -/
def extractFileDate (fileName : String) : Option CivilDate :=
  strptimeYmd (replaceAll ".json".toList []
    ((splitOnChar '_' fileName.toList).getLastD []))

/-- Deletion decision of the sweep loop (cleanup_old_files, lines 189-200):
delete iff the name yields a valid date token and
`(current_date - file_date).days > 7`; a `ValueError` from parsing is caught
and the file is skipped. -/
def fileIsDeleted (cur : CivilDate) (fileName : String) : Bool :=
  match extractFileDate fileName with
  | some d => decide (7 < daysBetween cur d)
  | none => false

/-- The files `cleanup_old_files` unlinks from a directory listing. -/
def cleanupDeletedFiles (cur : CivilDate) (files : List String) : List String :=
  files.filter (fun f => fileIsDeleted cur f)

/-- The files `cleanup_old_files` leaves in place. -/
def cleanupKeptFiles (cur : CivilDate) (files : List String) : List String :=
  files.filter (fun f => !fileIsDeleted cur f)

/-! ## Specification-side measures used to state the verified properties -/

/-- All contributor entries of a snapshot, flattened in input order. -/
def allContributors (contrib : List RepositoryContribution) : List ContributorRecord :=
  contrib.flatMap (fun rc => rc.contributors)

/-- Summed contributions of a login inside one flat contributor list. -/
def flatTotal (cs : List ContributorRecord) (login : String) : Nat :=
  ((cs.filter (fun c => c.login = login)).map (fun c => c.contributions)).sum

/-- Occurrences of a login inside one flat contributor list. -/
def flatCount (cs : List ContributorRecord) (login : String) : Nat :=
  (cs.filter (fun c => c.login = login)).length

/-- Specification measure: contributions of a login summed over all snapshot
entries in which it appears. -/
def loginTotal (contrib : List RepositoryContribution) (login : String) : Nat :=
  (contrib.map (fun rc => flatTotal rc.contributors login)).sum

/-- The snapshot entries in which a login appears. -/
def loginRepoEntries (contrib : List RepositoryContribution) (login : String) :
    List RepositoryContribution :=
  contrib.filter (fun rc => rc.contributors.any (fun c => c.login = login))

/-- Specification measure: number of distinct repositories a login
contributed to. -/
def loginDistinctRepos (contrib : List RepositoryContribution) (login : String) : Nat :=
  ((loginRepoEntries contrib login).map (fun rc => rc.repo_full_name)).dedup.length

/-- Invariant of the contributor merge: after folding a flat contributor
prefix `seen`, the accumulator holds, for each of its login keys, the summed
contributions and the number of occurrences of that login in `seen`; its
keys are exactly the logins of `seen` and carry no duplicates. -/
def ActivityInv (seen : List ContributorRecord)
    (acc : List (String × Activity)) : Prop :=
  (∀ p ∈ acc, p.2.total_contributions = flatTotal seen p.1 ∧
      p.2.repos_contributed = flatCount seen p.1) ∧
  (∀ l : String,
      l ∈ seen.map (fun c => c.login) ↔ acc.any (fun p => p.1 = l) = true) ∧
  (acc.map Prod.fst).Nodup

/-! ## Concrete instances used by counterexamples and witnesses -/

/-- A repository record with null `language` and `license`. -/
def nullClassifiedRepo : RepoRecord :=
  ⟨"org1", "proj", "org1/proj", 3, 1, 0, none, none, 0⟩

/-- The three-repository scenario of the spec, stars/forks
A: 100/10, B: 300/5, C: 300/20, in input order A, B, C. -/
def repoA : RepoRecord := ⟨"o", "A", "o/A", 100, 10, 0, some "Python", some "MIT", 1⟩

def repoB : RepoRecord := ⟨"o", "B", "o/B", 300, 5, 0, some "Go", some "MIT", 2⟩

def repoC : RepoRecord := ⟨"o", "C", "o/C", 300, 20, 0, some "Rust", none, 3⟩

/-- A fetched contributor list of length 25 (above the default cap of 20). -/
def fetched25 : List ContributorRecord :=
  (List.range 25).map (fun i => ⟨toString i, i + 1, "", ""⟩)

/-- Two-entry contributor snapshot: login `x` contributes 10 to `o/A` and
15 to `o/B`. -/
def contribSnapshotAB : List RepositoryContribution :=
  [⟨"o/A", 1, [⟨"x", 10, "", ""⟩]⟩, ⟨"o/B", 1, [⟨"x", 15, "", ""⟩]⟩]

/-- Reference date of the sweeper scenario. -/
def sweepReferenceDate : CivilDate := ⟨2024, 1, 15⟩

/-- Directory listing for the sweeper scenario: files 1, 5, 8 and 10 days
older than the reference date, plus one whose name has no date token. -/
def sweepFiles : List String :=
  ["repos_raw_2024-01-14.json", "repos_raw_2024-01-10.json",
   "repos_raw_2024-01-07.json", "repos_raw_2024-01-05.json",
   "github_summary_latest.json"]

/-- Repositories across two organizations, for the partition-sum witness. -/
def demoRepos : List RepoRecord :=
  [⟨"a", "r1", "a/r1", 5, 1, 0, some "Python", none, 1⟩,
   ⟨"b", "r2", "b/r2", 7, 2, 0, none, some "MIT", 2⟩,
   ⟨"a", "r3", "a/r3", 11, 3, 0, some "Go", none, 3⟩]

/-! ## Helper lemmas: the stable descending sort -/

theorem pySortDescBy_perm (key : α → Nat) (l : List α) :
    (pySortDescBy key l).Perm l :=
  List.perm_insertionSort _ l

theorem pySortDescBy_sorted (key : α → Nat) (l : List α) :
    List.Sorted (fun a b => key b ≤ key a) (pySortDescBy key l) := by
  haveI : IsTotal α (fun a b => key b ≤ key a) :=
    ⟨fun a b => Nat.le_total (key b) (key a)⟩
  haveI : IsTrans α (fun a b => key b ≤ key a) :=
    ⟨fun _ _ _ hab hbc => Nat.le_trans hbc hab⟩
  exact List.sorted_insertionSort _ l

theorem pySortDescBy_pair_stable (key : α → Nat) {l : List α} {a b : α}
    (hab : key b ≤ key a) (h : [a, b].Sublist l) :
    [a, b].Sublist (pySortDescBy key l) :=
  List.pair_sublist_insertionSort hab h

theorem pySortDescBy_length (key : α → Nat) (l : List α) :
    (pySortDescBy key l).length = l.length :=
  (pySortDescBy_perm key l).length_eq

/-! ## Helper lemmas: first-occurrence deduplication -/

theorem firstOccur_aux_mem [DecidableEq α] (l : List α) :
    ∀ (acc : List α) (a : α),
      a ∈ l.foldl (fun acc x => if x ∈ acc then acc else acc ++ [x]) acc ↔
        a ∈ acc ∨ a ∈ l := by
  induction l with
  | nil => intro acc a; simp
  | cons x l ih =>
    intro acc a
    rw [List.foldl_cons, ih]
    by_cases hx : x ∈ acc
    · simp only [if_pos hx, List.mem_cons]
      constructor
      · rintro (h | h)
        · exact Or.inl h
        · exact Or.inr (Or.inr h)
      · rintro (h | h | h)
        · exact Or.inl h
        · exact Or.inl (h ▸ hx)
        · exact Or.inr h
    · simp only [if_neg hx, List.mem_append, List.mem_singleton, List.mem_cons]
      tauto

theorem firstOccur_aux_nodup [DecidableEq α] (l : List α) :
    ∀ (acc : List α), acc.Nodup →
      (l.foldl (fun acc x => if x ∈ acc then acc else acc ++ [x]) acc).Nodup := by
  induction l with
  | nil => intro acc h; simpa using h
  | cons x l ih =>
    intro acc hacc
    rw [List.foldl_cons]
    by_cases hx : x ∈ acc
    · rw [if_pos hx]; exact ih acc hacc
    · rw [if_neg hx]
      refine ih (acc ++ [x]) ?_
      simp [List.nodup_append, hacc, hx]

theorem mem_firstOccur [DecidableEq α] {l : List α} {a : α} :
    a ∈ firstOccur l ↔ a ∈ l := by
  unfold firstOccur
  rw [firstOccur_aux_mem]
  simp

theorem firstOccur_nodup [DecidableEq α] (l : List α) : (firstOccur l).Nodup :=
  firstOccur_aux_nodup l [] List.nodup_nil

/-! ## Helper lemmas: partitioning by organization -/

theorem orgStarSum_filter_ne {repos : List RepoRecord} {o k : String} (hok : o ≠ k) :
    orgStarSum (repos.filter (fun r => !decide (r.organization = k))) o
      = orgStarSum repos o := by
  unfold orgStarSum orgGroup
  rw [List.filter_filter]
  have hfil : List.filter
      (fun a => decide (a.organization = o) && !decide (a.organization = k)) repos
      = List.filter (fun r => decide (r.organization = o)) repos := by
    apply List.filter_congr
    intro r _
    by_cases h : r.organization = o
    · have hk : ¬ r.organization = k := fun hh => hok (h ▸ hh)
      simp [h, hk, hok]
    · simp [h]
  rw [hfil]

theorem sum_orgStarSum_of_cover :
    ∀ K : List String, K.Nodup →
      ∀ repos : List RepoRecord, (∀ r ∈ repos, r.organization ∈ K) →
        (K.map (orgStarSum repos)).sum = (repos.map (fun r => r.stars)).sum := by
  intro K
  induction K with
  | nil =>
    intro _ repos hcov
    match repos with
    | [] => simp
    | r :: rs => exact absurd (hcov r (by simp)) (by simp)
  | cons k K ih =>
    intro hnd repos hcov
    have hknotin : k ∉ K := (List.nodup_cons.mp hnd).1
    have hndK : K.Nodup := (List.nodup_cons.mp hnd).2
    have hcovrest : ∀ r ∈ repos.filter (fun r => !decide (r.organization = k)),
        r.organization ∈ K := by
      intro r hr
      rw [List.mem_filter] at hr
      have h2 : ¬ r.organization = k := by simpa using hr.2
      rcases List.mem_cons.mp (hcov r hr.1) with h | h
      · exact absurd h h2
      · exact h
    have hmapeq : K.map (orgStarSum repos)
        = K.map (orgStarSum (repos.filter (fun r => !decide (r.organization = k)))) := by
      apply List.map_congr_left
      intro o ho
      have hok : o ≠ k := fun h => hknotin (h ▸ ho)
      rw [orgStarSum_filter_ne hok]
    have hsplit : (repos.map (fun r => r.stars)).sum
        = orgStarSum repos k
          + ((repos.filter (fun r => !decide (r.organization = k))).map
              (fun r => r.stars)).sum := by
      have hperm :=
        ((List.filter_append_perm (fun r => decide (r.organization = k)) repos).map
          (fun r => r.stars)).sum_eq
      rw [List.map_append, List.sum_append] at hperm
      exact hperm.symm
    rw [List.map_cons, List.sum_cons, hmapeq,
      ih hndK (repos.filter (fun r => !decide (r.organization = k))) hcovrest, hsplit]

/-! ## Helper lemmas: the collection loops -/

theorem foldl_append_extend {β : Type*} {γ : Type*} (f : β → List γ) :
    ∀ (l : List β) (acc : List γ),
      l.foldl (fun a x => a ++ f x) acc = acc ++ l.flatMap f := by
  intro l
  induction l with
  | nil => intro acc; simp
  | cons x l ih =>
    intro acc
    rw [List.foldl_cons, ih, List.flatMap_cons, List.append_assoc]

theorem collectAllOrgRepos_eq_flatMap (results : List (String × Except String (List RepoRecord))) :
    collectAllOrgRepos results
      = results.flatMap (fun pr =>
          match pr.2 with | Except.ok l => l | Except.error _ => []) := by
  unfold collectAllOrgRepos
  exact foldl_append_extend _ results []

theorem collectAllContributions_eq_flatMap (results : List (Option RepositoryContribution)) :
    collectAllContributions results
      = results.flatMap (fun r =>
          match r with | some c => [c] | none => []) := by
  unfold collectAllContributions
  have hstep :
      (fun (acc : List RepositoryContribution) (r : Option RepositoryContribution) =>
          match r with | some c => acc ++ [c] | none => acc)
        = (fun acc r =>
            acc ++ (match r with | some c => [c] | none => [])) := by
    funext acc r
    cases r <;> simp
  rw [hstep]
  exact foldl_append_extend _ results []

/-! ## Helper lemmas: value_counts -/

theorem valueCounts_cons_none (vals : List (Option String)) :
    valueCounts (none :: vals) = valueCounts vals := rfl

theorem valueCounts_key_mem {vals : List (Option String)} {p : String × Nat}
    (hp : p ∈ valueCounts vals) : some p.1 ∈ vals := by
  unfold valueCounts at hp
  have hp2 := (pySortDescBy_perm (fun p : String × Nat => p.2) _).mem_iff.mp hp
  obtain ⟨k, hk, hkp⟩ := List.mem_map.mp hp2
  have hmem : k ∈ vals.filterMap id := mem_firstOccur.mp hk
  obtain ⟨a, ha, hak⟩ := List.mem_filterMap.mp hmem
  have : a = some k := hak
  have hfst : p.1 = k := by rw [← hkp]
  rw [hfst, ← this]
  exact ha

/-! ## Claim theorems -/

/-- Claim C1, counterexample: a snapshot consisting of one repository whose
`language` and `license` are null produces EMPTY histograms — the record is
dropped by `value_counts()` (pandas `dropna=True` default), not counted in
any "unknown" bucket, although it is counted in `total_repositories`. -/
theorem C1_null_language_counterexample :
    (generateSummaryReport [nullClassifiedRepo] none).total_repositories = 1 ∧
    (generateSummaryReport [nullClassifiedRepo] none).top_languages = [] ∧
    (generateSummaryReport [nullClassifiedRepo] none).license_distribution = [] :=
  ⟨rfl, by decide, by decide⟩

/-- Claim C1, amended: summary generation is total on records with null
classification, but such a record is EXCLUDED from the histogram (it
contributes to no bucket and leaves the histogram unchanged), and no
"unknown" bucket is synthesized: every histogram key is the actual non-null
`language`/`license` value of some record. -/
theorem C1_null_classification_dropped (cf : ContribInput) (r : RepoRecord)
    (rs : List RepoRecord) (hlang : r.language = none) (hlic : r.license = none) :
    (generateSummaryReport (r :: rs) cf).top_languages
        = (generateSummaryReport rs cf).top_languages ∧
    (generateSummaryReport (r :: rs) cf).license_distribution
        = (generateSummaryReport rs cf).license_distribution ∧
    (∀ p ∈ (generateSummaryReport (r :: rs) cf).top_languages,
        some p.1 ∈ (r :: rs).map (fun x => x.language)) ∧
    (∀ p ∈ (generateSummaryReport (r :: rs) cf).license_distribution,
        some p.1 ∈ (r :: rs).map (fun x => x.license)) := by
  have hmapl : (r :: rs).map (fun x => x.language)
      = none :: rs.map (fun x => x.language) := by rw [List.map_cons, hlang]
  have hmapc : (r :: rs).map (fun x => x.license)
      = none :: rs.map (fun x => x.license) := by rw [List.map_cons, hlic]
  refine ⟨?_, ?_, ?_, ?_⟩
  · show (valueCounts ((r :: rs).map (fun x => x.language))).take 15
        = (valueCounts (rs.map (fun x => x.language))).take 15
    rw [hmapl, valueCounts_cons_none]
  · show (valueCounts ((r :: rs).map (fun x => x.license))).take 10
        = (valueCounts (rs.map (fun x => x.license))).take 10
    rw [hmapc, valueCounts_cons_none]
  · intro p hp
    exact valueCounts_key_mem (List.mem_of_mem_take hp)
  · intro p hp
    exact valueCounts_key_mem (List.mem_of_mem_take hp)

/-- Witness for C1_null_classification_dropped at a concrete record. -/
theorem C1_null_classification_dropped_witness :
    nullClassifiedRepo.language = none ∧ nullClassifiedRepo.license = none ∧
    ((generateSummaryReport (nullClassifiedRepo :: [repoA]) none).top_languages
        = (generateSummaryReport [repoA] none).top_languages ∧
      (generateSummaryReport (nullClassifiedRepo :: [repoA]) none).license_distribution
        = (generateSummaryReport [repoA] none).license_distribution ∧
      (∀ p ∈ (generateSummaryReport (nullClassifiedRepo :: [repoA]) none).top_languages,
          some p.1 ∈ (nullClassifiedRepo :: [repoA]).map (fun x => x.language)) ∧
      (∀ p ∈ (generateSummaryReport
            (nullClassifiedRepo :: [repoA]) none).license_distribution,
          some p.1 ∈ (nullClassifiedRepo :: [repoA]).map (fun x => x.license))) :=
  ⟨rfl, rfl, C1_null_classification_dropped none nullClassifiedRepo [repoA] rfl rfl⟩

/-- Claim C2, counterexample: `nlargest(25, 'stars')` orders by stars ONLY,
breaking ties by input order, not by forks.  On the spec scenario
(A: 100/10, B: 300/5, C: 300/20 in input order A, B, C) the code yields
[B, C, A], not the claimed [C, B, A]. -/
theorem C2_ranking_counterexample :
    ((generateSummaryReport [repoA, repoB, repoC] none).top_starred_repositories).map
        (fun r => r.full_name) = ["o/B", "o/C", "o/A"] ∧
    ((generateSummaryReport [repoA, repoB, repoC] none).top_starred_repositories).map
        (fun r => r.full_name) ≠ ["o/C", "o/B", "o/A"] :=
  ⟨by decide, by decide⟩

/-- Claim C2, amended: each ranking list is the input stably sorted
descending by its single key (`stars` for the first list, `forks` for the
second; the other key is NOT consulted), ties broken by input order, then
truncated to the top 25. -/
theorem C2_rankings_single_key (repos : List RepoRecord) (cf : ContribInput)
    (h : repos ≠ []) :
    (∃ s : List RepoRecord, s.Perm repos ∧
        List.Sorted (fun a b => b.stars ≤ a.stars) s ∧
        (∀ a b : RepoRecord, [a, b].Sublist repos → b.stars ≤ a.stars →
            [a, b].Sublist s) ∧
        (generateSummaryReport repos cf).top_starred_repositories
          = (s.take 25).map rankedOf) ∧
    (∃ t : List RepoRecord, t.Perm repos ∧
        List.Sorted (fun a b => b.forks ≤ a.forks) t ∧
        (∀ a b : RepoRecord, [a, b].Sublist repos → b.forks ≤ a.forks →
            [a, b].Sublist t) ∧
        (generateSummaryReport repos cf).top_forked_repositories
          = (t.take 25).map rankedOf) ∧
    (generateSummaryReport repos cf).top_starred_repositories.length
        = min 25 repos.length ∧
    (generateSummaryReport repos cf).top_forked_repositories.length
        = min 25 repos.length := by
  refine ⟨⟨pySortDescBy (fun r => r.stars) repos, pySortDescBy_perm _ _,
      pySortDescBy_sorted _ _,
      fun a b hab hs => pySortDescBy_pair_stable _ hs hab, rfl⟩,
    ⟨pySortDescBy (fun r => r.forks) repos, pySortDescBy_perm _ _,
      pySortDescBy_sorted _ _,
      fun a b hab hs => pySortDescBy_pair_stable _ hs hab, rfl⟩, ?_, ?_⟩
  · show (((pySortDescBy (fun r => r.stars) repos).take 25).map rankedOf).length
        = min 25 repos.length
    rw [List.length_map, List.length_take, pySortDescBy_length]
  · show (((pySortDescBy (fun r => r.forks) repos).take 25).map rankedOf).length
        = min 25 repos.length
    rw [List.length_map, List.length_take, pySortDescBy_length]

/-- Witness for C2_rankings_single_key at the spec's three-repository
scenario. -/
theorem C2_rankings_single_key_witness :
    [repoA, repoB, repoC] ≠ ([] : List RepoRecord) ∧
    ((∃ s : List RepoRecord, s.Perm [repoA, repoB, repoC] ∧
        List.Sorted (fun a b => b.stars ≤ a.stars) s ∧
        (∀ a b : RepoRecord, [a, b].Sublist [repoA, repoB, repoC] →
            b.stars ≤ a.stars → [a, b].Sublist s) ∧
        (generateSummaryReport [repoA, repoB, repoC] none).top_starred_repositories
          = (s.take 25).map rankedOf) ∧
      (∃ t : List RepoRecord, t.Perm [repoA, repoB, repoC] ∧
        List.Sorted (fun a b => b.forks ≤ a.forks) t ∧
        (∀ a b : RepoRecord, [a, b].Sublist [repoA, repoB, repoC] →
            b.forks ≤ a.forks → [a, b].Sublist t) ∧
        (generateSummaryReport [repoA, repoB, repoC] none).top_forked_repositories
          = (t.take 25).map rankedOf) ∧
      (generateSummaryReport [repoA, repoB, repoC] none).top_starred_repositories.length
          = min 25 [repoA, repoB, repoC].length ∧
      (generateSummaryReport [repoA, repoB, repoC] none).top_forked_repositories.length
          = min 25 [repoA, repoB, repoC].length) :=
  ⟨by decide, C2_rankings_single_key [repoA, repoB, repoC] none (by decide)⟩

/-- Claim C3: evaluation of the code at the failing input.  With a fetch of
25 contributors and cap 20, `collect_repository_contributors`
(src/src/collect_contribution_data.py) truncates BEFORE counting, recording
`total_contributors = 20` — the capped sequence length, never exceeding the
cap — while the DAG implementation of the same step
(dags/github_data_collection_dag.py) records the true count 25, which is
what the claim and the spec describe. -/
theorem C3_total_contributors_capped :
    fetched25.length = 25 ∧
    (srcCollectRepositoryContributors "o/r" fetched25 20).total_contributors = 20 ∧
    (srcCollectRepositoryContributors "o/r" fetched25 20).contributors.length = 20 ∧
    (dagCollectRepositoryContributors "o/r" fetched25).total_contributors = 25 ∧
    (∀ (nm : String) (fetched : List ContributorRecord) (cap : Nat),
        (srcCollectRepositoryContributors nm fetched cap).total_contributors
          = min cap fetched.length) := by
  refine ⟨by decide, by decide, by decide, by decide, ?_⟩
  intro nm fetched cap
  show (fetched.take cap).length = min cap fetched.length
  exact List.length_take cap fetched

/-- Claim C5, counterexample: with 11 repositories and an observed quota of
0 (below the threshold 100 of `check_rate_limit`), the loop's checkpoint
after the 10th repository is immediately followed by the 11th fetch, and no
sleep event occurs anywhere in the trace. -/
theorem C5_no_sleep_counterexample :
    (srcContributionLoopTrace 11 (fun _ => 0)).get? 10
        = some (CollectorEvent.checkQuota 0) ∧
    (0 : Nat) < 100 ∧
    (srcContributionLoopTrace 11 (fun _ => 0)).get? 11
        = some (CollectorEvent.fetch 11) ∧
    CollectorEvent.sleep ∉ srcContributionLoopTrace 11 (fun _ => 0) :=
  ⟨by decide, by decide, by decide, by decide⟩

/-- Claim C5, amended: the contributor collection loop inspects (and only
logs) the remaining quota after every 10th repository; it NEVER sleeps —
every repository is fetched regardless of the observed quota.  The sleeping
`check_rate_limit` of `GitHubDataCollector` (which sleeps exactly when the
remaining quota is below 100) exists but is not invoked by the loop. -/
theorem C5_checkpoints_log_only (n : Nat) (quotaAt : Nat → Nat) :
    CollectorEvent.sleep ∉ srcContributionLoopTrace n quotaAt ∧
    (∀ k, k < n →
        CollectorEvent.fetch (k + 1) ∈ srcContributionLoopTrace n quotaAt) ∧
    (∀ k, k < n → (k + 1) % 10 = 0 →
        CollectorEvent.checkQuota (quotaAt (k + 1))
          ∈ srcContributionLoopTrace n quotaAt) ∧
    (∀ r : Nat, CollectorEvent.sleep ∈ checkRateLimitEvents r ↔ r < 100) := by
  have hblock : ∀ i : Nat, CollectorEvent.sleep ∉
      (CollectorEvent.fetch (i + 1) ::
        (if (i + 1) % 10 = 0 then [CollectorEvent.checkQuota (quotaAt (i + 1))]
          else [])) := by
    intro i
    by_cases h : (i + 1) % 10 = 0 <;> simp [h]
  refine ⟨?_, ?_, ?_, ?_⟩
  · intro hmem
    rw [srcContributionLoopTrace, List.mem_flatMap] at hmem
    obtain ⟨i, _, hi⟩ := hmem
    exact hblock i hi
  · intro k hk
    rw [srcContributionLoopTrace, List.mem_flatMap]
    exact ⟨k, List.mem_range.mpr hk, by simp⟩
  · intro k hk hmod
    rw [srcContributionLoopTrace, List.mem_flatMap]
    exact ⟨k, List.mem_range.mpr hk, by simp [hmod]⟩
  · intro r
    unfold checkRateLimitEvents
    by_cases h : r < 100 <;> simp [h]

/-- Claim C6: the sweeper deletes exactly the files whose embedded date
token parses and is strictly more than 7 days older than the reference
date; unparsable names are kept untouched.  On the spec scenario (files 1,
5, 8, 10 days old plus a dateless name, reference 2024-01-15) exactly the
8- and 10-day-old files are deleted. -/
theorem C6_sweeper_exact (cur : CivilDate) (files : List String) (f : String)
    (hf : f ∈ files) :
    (f ∈ cleanupDeletedFiles cur files ↔
        ∃ d, extractFileDate f = some d ∧ 7 < daysBetween cur d) ∧
    (extractFileDate f = none → f ∈ cleanupKeptFiles cur files) ∧
    cleanupDeletedFiles sweepReferenceDate sweepFiles
        = ["repos_raw_2024-01-07.json", "repos_raw_2024-01-05.json"] ∧
    cleanupKeptFiles sweepReferenceDate sweepFiles
        = ["repos_raw_2024-01-14.json", "repos_raw_2024-01-10.json",
            "github_summary_latest.json"] := by
  refine ⟨?_, ?_, by decide, by decide⟩
  · unfold cleanupDeletedFiles
    rw [List.mem_filter]
    constructor
    · intro hmem
      have hdel := hmem.2
      unfold fileIsDeleted at hdel
      rcases hE : extractFileDate f with _ | d
      · rw [hE] at hdel; cases hdel
      · rw [hE] at hdel
        exact ⟨d, rfl, of_decide_eq_true hdel⟩
    · rintro ⟨d, hd, hgt⟩
      refine ⟨hf, ?_⟩
      unfold fileIsDeleted
      rw [hd]
      exact decide_eq_true hgt
  · intro hnone
    unfold cleanupKeptFiles
    rw [List.mem_filter]
    refine ⟨hf, ?_⟩
    unfold fileIsDeleted
    rw [hnone]
    rfl

/-- Witness for C6_sweeper_exact at a concrete file of the scenario. -/
theorem C6_sweeper_exact_witness :
    "repos_raw_2024-01-05.json" ∈ sweepFiles ∧
    (("repos_raw_2024-01-05.json" ∈ cleanupDeletedFiles sweepReferenceDate sweepFiles ↔
        ∃ d, extractFileDate "repos_raw_2024-01-05.json" = some d ∧
          7 < daysBetween sweepReferenceDate d) ∧
      (extractFileDate "repos_raw_2024-01-05.json" = none →
        "repos_raw_2024-01-05.json" ∈ cleanupKeptFiles sweepReferenceDate sweepFiles) ∧
      cleanupDeletedFiles sweepReferenceDate sweepFiles
          = ["repos_raw_2024-01-07.json", "repos_raw_2024-01-05.json"] ∧
      cleanupKeptFiles sweepReferenceDate sweepFiles
          = ["repos_raw_2024-01-14.json", "repos_raw_2024-01-10.json",
              "github_summary_latest.json"]) :=
  ⟨by decide,
    C6_sweeper_exact sweepReferenceDate sweepFiles "repos_raw_2024-01-05.json"
      (by decide)⟩

/-- Claim C7: with no contributor input the report's
`contribution_analysis` field is absent (`none`, not zeros), and rendering
any report with an absent contributor section succeeds (`Except.ok`) with
an empty contributor block — the `{% if %}` guard prevents the iteration
that would raise. -/
theorem C7_absent_contrib_section (repos : List RepoRecord) (h : repos ≠ []) :
    (generateSummaryReport repos none).contribution_analysis = none ∧
    (∀ s : SummaryReport, s.contribution_analysis = none →
        contributorSectionHtml s = Except.ok "" ∧
        createDashboardHtml s
          = Except.ok (metricsHtml s ++ starTableHtml s ++ "")) := by
  refine ⟨rfl, ?_⟩
  intro s hs
  have h1 : contributorSectionHtml s = Except.ok "" := by
    unfold contributorSectionHtml
    rw [hs]
    rfl
  refine ⟨h1, ?_⟩
  unfold createDashboardHtml
  rw [h1]
  rfl

/-- Witness for C7_absent_contrib_section at a concrete snapshot. -/
theorem C7_absent_contrib_section_witness :
    demoRepos ≠ [] ∧
    ((generateSummaryReport demoRepos none).contribution_analysis = none ∧
      (∀ s : SummaryReport, s.contribution_analysis = none →
          contributorSectionHtml s = Except.ok "" ∧
          createDashboardHtml s
            = Except.ok (metricsHtml s ++ starTableHtml s ++ ""))) :=
  ⟨by decide, C7_absent_contrib_section demoRepos (by decide)⟩

/-- Claim C8: a failing entity (one organization in the repository
collector, one repository in the contributor collector) contributes zero
records / is omitted, the other entities' records are exactly those produced
without it, and the batch is the total concatenation of per-entity
successes — it never aborts. -/
theorem C8_per_entity_isolation :
    (∀ (l₁ l₂ : List (String × Except String (List RepoRecord))) (o e : String),
        collectAllOrgRepos (l₁ ++ (o, Except.error e) :: l₂)
          = collectAllOrgRepos (l₁ ++ l₂)) ∧
    (∀ m₁ m₂ : List (Option RepositoryContribution),
        collectAllContributions (m₁ ++ none :: m₂)
          = collectAllContributions (m₁ ++ m₂)) ∧
    (∀ results, collectAllOrgRepos results
        = results.flatMap (fun pr =>
            match pr.2 with | Except.ok l => l | Except.error _ => [])) ∧
    (∀ results, collectAllContributions results
        = results.flatMap (fun r =>
            match r with | some c => [c] | none => [])) := by
  refine ⟨?_, ?_, collectAllOrgRepos_eq_flatMap, collectAllContributions_eq_flatMap⟩
  · intro l₁ l₂ o e
    rw [collectAllOrgRepos_eq_flatMap, collectAllOrgRepos_eq_flatMap,
      List.flatMap_append, List.flatMap_append, List.flatMap_cons]
    simp
  · intro m₁ m₂
    rw [collectAllContributions_eq_flatMap, collectAllContributions_eq_flatMap,
      List.flatMap_append, List.flatMap_append, List.flatMap_cons]
    simp

/-- Claim C9: summing the per-organization star sums of the organization
breakdown yields exactly the global `total_stars` of the summary. -/
theorem C9_partition_star_sums (repos : List RepoRecord) (cf : ContribInput)
    (h : repos ≠ []) :
    (((generateSummaryReport repos cf).organization_breakdown).map
        (fun p => p.2.stars_sum)).sum
      = (generateSummaryReport repos cf).total_stars := by
  show (((orgKeys repos).map (fun o => (o, orgStatsOf repos o))).map
      (fun p => p.2.stars_sum)).sum = (repos.map (fun r => r.stars)).sum
  rw [List.map_map]
  have hcomp : ((fun p : String × OrgStats => p.2.stars_sum)
      ∘ fun o => (o, orgStatsOf repos o)) = orgStarSum repos := by
    funext o
    rfl
  rw [hcomp]
  exact sum_orgStarSum_of_cover (orgKeys repos) (firstOccur_nodup _) repos
    (fun r hr => mem_firstOccur.mpr (List.mem_map_of_mem _ hr))

/-- Witness for C9_partition_star_sums at a two-organization snapshot. -/
theorem C9_partition_star_sums_witness :
    demoRepos ≠ [] ∧
    (((generateSummaryReport demoRepos none).organization_breakdown).map
        (fun p => p.2.stars_sum)).sum
      = (generateSummaryReport demoRepos none).total_stars :=
  ⟨by decide, C9_partition_star_sums demoRepos none (by decide)⟩

/-- Claim C10: a contributor path that does not exist, or a file holding an
empty JSON array, makes `generate_summary_report` behave exactly as when no
contributor input is given (the `contribution_analysis` field is absent);
whenever the field IS present its `repositories_analyzed` is positive and
`average_contributors_per_repo` is the quotient by that positive count, so
the division is never by zero. -/
theorem C10_contrib_guard (repos : List RepoRecord) :
    generateSummaryReport repos (some none) = generateSummaryReport repos none ∧
    generateSummaryReport repos (some (some [])) = generateSummaryReport repos none ∧
    (∀ (cf : ContribInput) (ca : ContributionAnalysis),
        (generateSummaryReport repos cf).contribution_analysis = some ca →
          0 < ca.repositories_analyzed ∧
          ca.average_contributors_per_repo
            = (ca.total_contributors : ℚ) / (ca.repositories_analyzed : ℚ)) := by
  refine ⟨rfl, rfl, ?_⟩
  intro cf ca hca
  have hca2 : contributionSection cf = some ca := hca
  rcases cf with _ | cf
  · cases hca2
  rcases cf with _ | l
  · cases hca2
  have hca3 : (if l.isEmpty = true then none else some (contributionAnalysisOf l))
      = some ca := hca2
  by_cases hl : l.isEmpty
  · rw [if_pos hl] at hca3
    cases hca3
  · rw [if_neg hl] at hca3
    have hcaeq : contributionAnalysisOf l = ca := Option.some.inj hca3
    have hlen : 0 < l.length := by
      cases l with
      | nil => simp at hl
      | cons x xs => simp
    constructor
    · rw [← hcaeq]
      exact hlen
    · rw [← hcaeq]
      rfl

/-- Witness for C10_contrib_guard at a concrete non-empty contributor
snapshot. -/
theorem C10_contrib_guard_witness :
    (generateSummaryReport demoRepos (some none)
        = generateSummaryReport demoRepos none) ∧
    0 < (contributionAnalysisOf contribSnapshotAB).repositories_analyzed ∧
    (contributionAnalysisOf contribSnapshotAB).average_contributors_per_repo
      = ((contributionAnalysisOf contribSnapshotAB).total_contributors : ℚ)
        / ((contributionAnalysisOf contribSnapshotAB).repositories_analyzed : ℚ) :=
  ⟨(C10_contrib_guard demoRepos).1,
    ((C10_contrib_guard demoRepos).2.2 (some (some contribSnapshotAB))
      (contributionAnalysisOf contribSnapshotAB) rfl).1,
    ((C10_contrib_guard demoRepos).2.2 (some (some contribSnapshotAB))
      (contributionAnalysisOf contribSnapshotAB) rfl).2⟩

/-! ## Helper lemmas: the contributor merge -/

theorem flatTotal_append (cs ds : List ContributorRecord) (l : String) :
    flatTotal (cs ++ ds) l = flatTotal cs l + flatTotal ds l := by
  unfold flatTotal
  rw [List.filter_append, List.map_append, List.sum_append]

theorem flatCount_append (cs ds : List ContributorRecord) (l : String) :
    flatCount (cs ++ ds) l = flatCount cs l + flatCount ds l := by
  unfold flatCount
  rw [List.filter_append, List.length_append]

theorem flatTotal_singleton (c : ContributorRecord) (l : String) :
    flatTotal [c] l = if c.login = l then c.contributions else 0 := by
  unfold flatTotal
  by_cases h : c.login = l <;> simp [h]

theorem flatCount_singleton (c : ContributorRecord) (l : String) :
    flatCount [c] l = if c.login = l then 1 else 0 := by
  unfold flatCount
  by_cases h : c.login = l <;> simp [h]

theorem flatTotal_of_not_mem {seen : List ContributorRecord} {l : String}
    (h : l ∉ seen.map (fun c => c.login)) : flatTotal seen l = 0 := by
  unfold flatTotal
  have : seen.filter (fun c => decide (c.login = l)) = [] := by
    rw [List.filter_eq_nil_iff]
    intro a ha hpa
    exact h (List.mem_map.mpr ⟨a, ha, of_decide_eq_true hpa⟩)
  rw [this]
  rfl

theorem flatCount_of_not_mem {seen : List ContributorRecord} {l : String}
    (h : l ∉ seen.map (fun c => c.login)) : flatCount seen l = 0 := by
  unfold flatCount
  have : seen.filter (fun c => decide (c.login = l)) = [] := by
    rw [List.filter_eq_nil_iff]
    intro a ha hpa
    exact h (List.mem_map.mpr ⟨a, ha, of_decide_eq_true hpa⟩)
  rw [this]
  rfl

theorem bumpActivity_inv {seen : List ContributorRecord}
    {acc : List (String × Activity)} (h : ActivityInv seen acc)
    (c : ContributorRecord) : ActivityInv (seen ++ [c]) (bumpActivity acc c) := by
  obtain ⟨hval, hkey, hnd⟩ := h
  unfold bumpActivity
  by_cases hmem : acc.any (fun p => p.1 = c.login) = true
  · rw [if_pos hmem]
    have hfst : ∀ p : String × Activity,
        ((fun p : String × Activity =>
          if p.1 = c.login then
            (p.1, { p.2 with
                      total_contributions := p.2.total_contributions + c.contributions
                      repos_contributed := p.2.repos_contributed + 1 })
          else p) p).1 = p.1 := by
      intro p
      by_cases hp : p.1 = c.login <;> simp [hp]
    refine ⟨?_, ?_, ?_⟩
    · intro p' hp'
      obtain ⟨p, hp, hfp⟩ := List.mem_map.mp hp'
      obtain ⟨h1, h2⟩ := hval p hp
      by_cases hpc : p.1 = c.login
      · rw [← hfp]
        simp only [if_pos hpc]
        constructor
        · rw [flatTotal_append, flatTotal_singleton, if_pos hpc.symm, h1]
        · rw [flatCount_append, flatCount_singleton, if_pos hpc.symm, h2]
      · rw [← hfp]
        simp only [if_neg hpc]
        constructor
        · rw [flatTotal_append, flatTotal_singleton,
            if_neg (fun hh => hpc hh.symm), h1, Nat.add_zero]
        · rw [flatCount_append, flatCount_singleton,
            if_neg (fun hh => hpc hh.symm), h2, Nat.add_zero]
    · intro l
      have hany : (acc.map (fun p : String × Activity =>
          if p.1 = c.login then
            (p.1, { p.2 with
                      total_contributions := p.2.total_contributions + c.contributions
                      repos_contributed := p.2.repos_contributed + 1 })
          else p)).any (fun p => p.1 = l) = acc.any (fun p => p.1 = l) := by
        rw [List.any_map]
        congr 1
        funext p
        simp only [Function.comp]
        rw [hfst p]
      rw [hany, List.map_append, List.mem_append]
      constructor
      · rintro (hl | hl)
        · exact (hkey l).mp hl
        · have : l = c.login := by simpa using hl
          rw [this]
          exact hmem
      · intro hl
        exact Or.inl ((hkey l).mpr hl)
    · have : (acc.map (fun p : String × Activity =>
          if p.1 = c.login then
            (p.1, { p.2 with
                      total_contributions := p.2.total_contributions + c.contributions
                      repos_contributed := p.2.repos_contributed + 1 })
          else p)).map Prod.fst = acc.map Prod.fst := by
        rw [List.map_map]
        apply List.map_congr_left
        intro p _
        exact hfst p
      rw [this]
      exact hnd
  · rw [if_neg hmem]
    have hnotseen : c.login ∉ seen.map (fun x => x.login) :=
      fun hh => hmem ((hkey c.login).mp hh)
    have hnotkey : c.login ∉ acc.map Prod.fst := by
      intro hh
      obtain ⟨p, hp, hpl⟩ := List.mem_map.mp hh
      exact hmem (List.any_eq_true.mpr ⟨p, hp, decide_eq_true hpl⟩)
    refine ⟨?_, ?_, ?_⟩
    · intro p' hp'
      rcases List.mem_append.mp hp' with hp | hp
      · obtain ⟨h1, h2⟩ := hval p' hp
        have hne : ¬ c.login = p'.1 := by
          intro hh
          exact hnotkey (List.mem_map.mpr ⟨p', hp, hh.symm⟩)
        constructor
        · rw [flatTotal_append, flatTotal_singleton, if_neg hne, h1, Nat.add_zero]
        · rw [flatCount_append, flatCount_singleton, if_neg hne, h2, Nat.add_zero]
      · have hp2 : p' = (c.login, (⟨c.contributions, 1, c.avatar_url, c.html_url⟩ : Activity)) := by
          simpa using hp
        rw [hp2]
        constructor
        · show c.contributions = flatTotal (seen ++ [c]) c.login
          rw [flatTotal_append, flatTotal_singleton, if_pos rfl,
            flatTotal_of_not_mem hnotseen, Nat.zero_add]
        · show 1 = flatCount (seen ++ [c]) c.login
          rw [flatCount_append, flatCount_singleton, if_pos rfl,
            flatCount_of_not_mem hnotseen, Nat.zero_add]
    · intro l
      rw [List.map_append, List.mem_append, List.any_append]
      constructor
      · rintro (hl | hl)
        · have := (hkey l).mp hl
          rw [this]
          simp
        · have : l = c.login := by simpa using hl
          rw [this]
          simp
      · intro hl
        rcases Bool.or_eq_true_iff.mp hl with hl | hl
        · exact Or.inl ((hkey l).mpr hl)
        · have : c.login = l := by simpa using hl
          rw [← this]
          exact Or.inr (by simp)
    · rw [List.map_append]
      rw [List.nodup_append]
      refine ⟨hnd, by simp, ?_⟩
      intro a ha hb
      have : a = c.login := by simpa using hb
      rw [this] at ha
      exact hnotkey ha

theorem foldl_bumpActivity_inv (cs : List ContributorRecord) :
    ∀ (seen : List ContributorRecord) (acc : List (String × Activity)),
      ActivityInv seen acc → ActivityInv (seen ++ cs) (cs.foldl bumpActivity acc) := by
  induction cs with
  | nil =>
    intro seen acc h
    simpa using h
  | cons c cs ih =>
    intro seen acc h
    have h2 := ih (seen ++ [c]) (bumpActivity acc c) (bumpActivity_inv h c)
    rw [List.foldl_cons]
    rw [List.append_assoc] at h2
    simpa using h2

theorem contributorActivity_eq_flat (contrib : List RepositoryContribution) :
    contributorActivity contrib = (allContributors contrib).foldl bumpActivity [] := by
  unfold contributorActivity allContributors
  suffices h : ∀ (l : List RepositoryContribution) (acc : List (String × Activity)),
      l.foldl (fun acc rc => rc.contributors.foldl bumpActivity acc) acc
        = (l.flatMap (fun rc => rc.contributors)).foldl bumpActivity acc from
    h contrib []
  intro l
  induction l with
  | nil => intro acc; simp
  | cons rc l ih =>
    intro acc
    rw [List.foldl_cons, ih, List.flatMap_cons, List.foldl_append]

theorem contributorActivity_inv (contrib : List RepositoryContribution) :
    ActivityInv (allContributors contrib) (contributorActivity contrib) := by
  rw [contributorActivity_eq_flat]
  have h0 : ActivityInv [] [] := ⟨by simp, by simp, List.nodup_nil⟩
  have := foldl_bumpActivity_inv (allContributors contrib) [] [] h0
  simpa using this

theorem flatTotal_allContributors (contrib : List RepositoryContribution)
    (l : String) : flatTotal (allContributors contrib) l = loginTotal contrib l := by
  unfold allContributors loginTotal
  induction contrib with
  | nil => simp [flatTotal]
  | cons rc cs ih =>
    rw [List.flatMap_cons, flatTotal_append, List.map_cons, List.sum_cons, ih]

theorem flatCount_filter_single {cs : List ContributorRecord} (l : String)
    (h : (cs.map (fun c => c.login)).Nodup) :
    flatCount cs l = if cs.any (fun c => c.login = l) then 1 else 0 := by
  have hrep : (cs.filter (fun c => decide (c.login = l))).map (fun c => c.login)
      = List.replicate (flatCount cs l) l := by
    rw [List.eq_replicate_iff]
    constructor
    · rw [List.length_map]
      rfl
    · intro b hb
      obtain ⟨c, hc, hcb⟩ := List.mem_map.mp hb
      have := of_decide_eq_true (List.mem_filter.mp hc).2
      rw [← hcb]
      exact this
  have hsub : List.Sublist
      ((cs.filter (fun c => decide (c.login = l))).map (fun c => c.login))
      (cs.map (fun c => c.login)) := (List.filter_sublist cs).map _
  have hndrep : (List.replicate (flatCount cs l) l).Nodup := by
    rw [← hrep]
    exact h.sublist hsub
  have hle : flatCount cs l ≤ 1 := List.nodup_replicate.mp hndrep
  by_cases hany : cs.any (fun c => c.login = l) = true
  · rw [if_pos hany]
    obtain ⟨c, hc, hcl⟩ := List.any_eq_true.mp hany
    have hcf : c ∈ cs.filter (fun c => decide (c.login = l)) :=
      List.mem_filter.mpr ⟨hc, hcl⟩
    have hpos : 0 < flatCount cs l := by
      unfold flatCount
      exact List.length_pos.mpr (fun hh => by rw [hh] at hcf; cases hcf)
    omega
  · rw [if_neg hany]
    unfold flatCount
    have : cs.filter (fun c => decide (c.login = l)) = [] := by
      rw [List.filter_eq_nil_iff]
      intro a ha hpa
      exact hany (List.any_eq_true.mpr ⟨a, ha, hpa⟩)
    rw [this]
    rfl

theorem flatCount_allContributors (contrib : List RepositoryContribution)
    (l : String)
    (h : ∀ rc ∈ contrib, (rc.contributors.map (fun c => c.login)).Nodup) :
    flatCount (allContributors contrib) l = (loginRepoEntries contrib l).length := by
  unfold allContributors loginRepoEntries
  induction contrib with
  | nil => simp [flatCount]
  | cons rc cs ih =>
    rw [List.flatMap_cons, flatCount_append, List.filter_cons]
    have h1 := flatCount_filter_single l (h rc (by simp))
    have h2 := ih (fun rc' h' => h rc' (by simp [h']))
    rw [h1, h2]
    by_cases hany : rc.contributors.any (fun c => c.login = l) = true
    · simp only [hany, if_pos, List.length_cons]
      omega
    · simp only [hany]
      rw [if_neg (by simpa using hany), if_neg (by simpa using hany)]
      omega

theorem loginDistinctRepos_eq (contrib : List RepositoryContribution)
    (l : String) (hRepos : (contrib.map (fun rc => rc.repo_full_name)).Nodup) :
    loginDistinctRepos contrib l = (loginRepoEntries contrib l).length := by
  unfold loginDistinctRepos
  have hsub : List.Sublist
      ((loginRepoEntries contrib l).map (fun rc => rc.repo_full_name))
      (contrib.map (fun rc => rc.repo_full_name)) :=
    (List.filter_sublist contrib).map _
  have hnd := hRepos.sublist hsub
  rw [List.dedup_eq_self.mpr hnd, List.length_map]

/-- Claim C4: each entry of the contributor merge carries the login's
contributions summed across all snapshot entries and its count of distinct
repositories (under the structural assumptions that each entry lists a login
at most once and entry repository names are unique); every appearing login
has an entry; the leaderboard is the stable descending sort of the merge by
summed contributions (ties by first occurrence), truncated to 25. -/
theorem C4_contributor_leaderboard (contrib : List RepositoryContribution)
    (hLogins : ∀ rc ∈ contrib, (rc.contributors.map (fun c => c.login)).Nodup)
    (hRepos : (contrib.map (fun rc => rc.repo_full_name)).Nodup) :
    (∀ p ∈ contributorActivity contrib,
        p.2.total_contributions = loginTotal contrib p.1 ∧
        p.2.repos_contributed = loginDistinctRepos contrib p.1) ∧
    (∀ l : String, l ∈ (allContributors contrib).map (fun c => c.login) →
        ∃ a : Activity, (l, a) ∈ contributorActivity contrib) ∧
    (∃ s : List (String × Activity), s.Perm (contributorActivity contrib) ∧
        List.Sorted (fun p q : String × Activity =>
          q.2.total_contributions ≤ p.2.total_contributions) s ∧
        (∀ p q : String × Activity, [p, q].Sublist (contributorActivity contrib) →
            q.2.total_contributions ≤ p.2.total_contributions →
            [p, q].Sublist s) ∧
        topContributorsOf contrib = (s.take 25).map standingOf) ∧
    (topContributorsOf contrib).length
        = min 25 (contributorActivity contrib).length := by
  obtain ⟨hval, hkey, hnd⟩ := contributorActivity_inv contrib
  refine ⟨?_, ?_, ?_, ?_⟩
  · intro p hp
    obtain ⟨h1, h2⟩ := hval p hp
    constructor
    · rw [h1, flatTotal_allContributors]
    · rw [h2, flatCount_allContributors contrib p.1 hLogins,
        loginDistinctRepos_eq contrib p.1 hRepos]
  · intro l hl
    obtain ⟨p, hp, hpl⟩ := List.any_eq_true.mp ((hkey l).mp hl)
    have hpl2 : p.1 = l := of_decide_eq_true hpl
    refine ⟨p.2, ?_⟩
    rw [← hpl2]
    exact hp
  · exact ⟨pySortDescBy (fun p => p.2.total_contributions) (contributorActivity contrib),
      pySortDescBy_perm _ _, pySortDescBy_sorted _ _,
      fun p q hpq hle => pySortDescBy_pair_stable _ hle hpq, rfl⟩
  · show (((pySortDescBy (fun p => p.2.total_contributions)
        (contributorActivity contrib)).take 25).map standingOf).length = _
    rw [List.length_map, List.length_take, pySortDescBy_length]

/-- Witness for C4_contributor_leaderboard on the two-repository scenario
(login `x` with contributions 10 and 15 merges to total 25 across 2
distinct repositories). -/
theorem C4_contributor_leaderboard_witness :
    (∀ rc ∈ contribSnapshotAB, (rc.contributors.map (fun c => c.login)).Nodup) ∧
    (contribSnapshotAB.map (fun rc => rc.repo_full_name)).Nodup ∧
    contributorActivity contribSnapshotAB
        = [("x", (⟨25, 2, "", ""⟩ : Activity))] ∧
    ((∀ p ∈ contributorActivity contribSnapshotAB,
        p.2.total_contributions = loginTotal contribSnapshotAB p.1 ∧
        p.2.repos_contributed = loginDistinctRepos contribSnapshotAB p.1) ∧
      (∀ l : String, l ∈ (allContributors contribSnapshotAB).map (fun c => c.login) →
          ∃ a : Activity, (l, a) ∈ contributorActivity contribSnapshotAB) ∧
      (∃ s : List (String × Activity), s.Perm (contributorActivity contribSnapshotAB) ∧
          List.Sorted (fun p q : String × Activity =>
            q.2.total_contributions ≤ p.2.total_contributions) s ∧
          (∀ p q : String × Activity,
              [p, q].Sublist (contributorActivity contribSnapshotAB) →
              q.2.total_contributions ≤ p.2.total_contributions →
              [p, q].Sublist s) ∧
          topContributorsOf contribSnapshotAB = (s.take 25).map standingOf) ∧
      (topContributorsOf contribSnapshotAB).length
          = min 25 (contributorActivity contribSnapshotAB).length) :=
  ⟨by decide, by decide, by decide,
    C4_contributor_leaderboard contribSnapshotAB (by decide) (by decide)⟩

end GithubDataCollector
